import Mathlib

/-!
Verification of the teacher-dashboard backend (two near-duplicate Express/MySQL
servers: `src/server.js`, called the *primary* variant below, and
`src/unnamed/part_000`, called the *legacy* variant).

Modelling conventions
* A database row / parsed spreadsheet row is an association list from column
  name to `Option String`; a missing key and a `none` value both denote SQL
  `NULL` (resp. a JS `undefined`/`null` cell value).  JS objects have distinct
  keys, so theorems about parsed rows may assume `Nodup` keys.
* MySQL string *data* comparisons use the default case-insensitive collation:
  they are modelled by comparing ASCII-lowercased character lists.  `LIKE`
  patterns are modelled in full, with the `%` and `_` wildcards and the `\`
  escape (`likeM`).
* Column *identifiers* are compared as exact strings (MySQL's case-insensitive
  identifier folding and the 64-character identifier length limit are not
  modelled); the one identifier operation with pattern semantics in the source,
  `SHOW COLUMNS FROM students LIKE ?`, is modelled with `likeM` since it
  receives a user string as a `LIKE` pattern.  `ALTER TABLE ... ADD COLUMN`
  with a backtick-quoted empty identifier is a MySQL syntax error and is
  modelled as a database error.
* Every 400 response of the routes (`Column already exists`,
  `Cannot delete base columns`, `Excel file is empty`, ...) is classified per
  the spec's taxonomy as `validationError` or `conflictError`; every error
  surfaced from the MySQL driver is a 500 and is modelled as `databaseError`.
* The `students` table's `id` and `created_at` bookkeeping columns and SQL
  value-length limits play no role in any claim and are omitted.
-/

/-- Error taxonomy of the spec (section 7): 400 validation, 400 conflict,
and everything surfaced from the database driver as a 500. -/
inductive ApiError
  | validationError
  | conflictError
  | databaseError
deriving DecidableEq

deriving instance DecidableEq for Except

/-- Association-list lookup, first binding wins (JS object / SQL row access). -/
def alookup {β : Type} (k : String) : List (String × β) → Option β
  | [] => none
  | p :: rest => if p.1 = k then some p.2 else alookup k rest

/-- Association-list update: replace the binding of `k` (or append one), as a
SQL `UPDATE ... SET k = v` does on a row. -/
def aset (k : String) (v : Option String) :
    List (String × Option String) → List (String × Option String)
  | [] => [(k, v)]
  | p :: rest => if p.1 = k then (k, v) :: rest else p :: aset k v rest

/-- Characters of a string, ASCII-lowercased: the shape in which the default
case-insensitive MySQL collation compares text. -/
def lcs (s : String) : List Char := s.data.map Char.toLower

/-- Case-insensitive string equality (default MySQL collation on `VARCHAR`). -/
def eqCI (a b : String) : Bool := lcs a == lcs b

/-- Token of a `LIKE` pattern: the `%` wildcard, the `_` wildcard, or a
literal character (either plain or produced by the `\` escape). -/
inductive LikeTok
  | pct
  | uscore
  | lit (c : Char)
deriving DecidableEq

mutual

/-- Tokenize a `LIKE` pattern: `\` makes the next character literal (a
trailing `\` matches a literal backslash), `%` and `_` are wildcards. -/
def likeLex : List Char → List LikeTok
  | [] => []
  | p :: ps =>
    if p = '\\' then likeEsc ps
    else if p = '%' then .pct :: likeLex ps
    else if p = '_' then .uscore :: likeLex ps
    else .lit p :: likeLex ps

/-- Tokenize what follows a `\` escape in a `LIKE` pattern. -/
def likeEsc : List Char → List LikeTok
  | [] => [.lit '\\']
  | c :: ps => .lit c :: likeLex ps

end

/-- Run a tokenized `LIKE` pattern over a text: `%` matches any sequence
(tried as every split of the remaining text), `_` matches exactly one
character, a literal matches itself. -/
def likeRun : List LikeTok → List Char → Bool
  | [], t => t.isEmpty
  | .pct :: ps, t => t.tails.any (fun s => likeRun ps s)
  | .uscore :: ps, t =>
    match t with
    | [] => false
    | _ :: ts => likeRun ps ts
  | .lit c :: ps, t =>
    match t with
    | [] => false
    | d :: ts => d == c && likeRun ps ts

/-- MySQL `LIKE` pattern matching on (already lowercased) character lists. -/
def likeM (p t : List Char) : Bool := likeRun (likeLex p) t

/-- Work-status row (`work_status` table): `task` and `deadline` are
`NOT NULL`, `status` is a nullable `ENUM` with default `'pending'`,
date values are kept as opaque strings. -/
structure WorkItem where
  id : Nat
  task : Option String
  status : Option String
  start_date : Option String
  deadline : Option String
  completed_date : Option String
deriving DecidableEq

/-- A stored student row or a parsed spreadsheet row: bindings from column
name to value, absent binding = SQL `NULL` / absent cell. -/
abbrev Row := List (String × Option String)

/-- Database state: the `table_columns` registry (in insertion order), the
physical columns of `students`, the student rows, and the `work_status`
table with its `AUTO_INCREMENT` counter. -/
structure Db where
  registry : List String
  studentCols : List String
  students : List Row
  workItems : List WorkItem
  nextWorkId : Nat
deriving DecidableEq

/-- The four fixed student attributes (`baseColumns` in both variants). -/
def baseColumns : List String := ["student_id", "name", "class", "section"]

/-- Columns of `students` that are `NOT NULL` without a default, so an
`INSERT` that omits one (or supplies `NULL`) fails in strict mode. -/
def requiredCols : List String := ["student_id", "name", "class", "section"]

/-- GET `/api/columns` (both variants): the four fixed names followed by the
registry contents. -/
def listColumns (db : Db) : List String := baseColumns ++ db.registry

/-- POST `/api/columns` of the primary variant: reject if the name is in the
registry, reject if `SHOW COLUMNS FROM students LIKE ?` matches anything,
then `INSERT` into the registry and `ALTER TABLE students ADD COLUMN`.
The `ALTER` of an empty identifier is a syntax error raised after the
registry insert already happened. -/
def addColumn (db : Db) (name : String) : Db × Except ApiError String :=
  if db.registry.contains name then (db, .error .conflictError)
  else if db.studentCols.any (fun d => likeM (lcs name) (lcs d)) then
    (db, .error .conflictError)
  else
    let db1 := { db with registry := db.registry ++ [name] }
    if name = "" then (db1, .error .databaseError)
    else ({ db1 with studentCols := db1.studentCols ++ [name] }, .ok name)

/-- Drop a column from one stored student row. -/
def dropColVal (name : String) (r : Row) : Row := r.filter (fun p => p.1 ≠ name)

/-- DELETE `/api/columns/:columnName` (both variants): base names are rejected
up front with a 400; otherwise the registry row is deleted and then the
column is dropped, which errors (after the registry delete) if the column
does not physically exist. -/
def deleteColumn (db : Db) (name : String) : Db × Except ApiError String :=
  if baseColumns.contains name then (db, .error .validationError)
  else
    let db1 := { db with registry := db.registry.filter (fun c => c ≠ name) }
    if db1.studentCols.contains name then
      ({ db1 with studentCols := db1.studentCols.filter (fun c => c ≠ name),
                  students := db1.students.map (dropColVal name) },
       .ok "Column deleted successfully")
    else (db1, .error .databaseError)

/-- Entries of a parsed row that survive the primary importer's filter
`value !== undefined && value !== null && value !== ''`. -/
def validEntries (row : Row) : List (String × String) :=
  row.filterMap (fun p =>
    match p.2 with
    | none => none
    | some v => if v = "" then none else some (p.1, v))

/-- Value of the `student_id` attribute of a stored row. -/
def studentIdOf (r : Row) : Option String := (alookup "student_id" r).join

/-- Does a stored row's `student_id` collide with `sid` under the
case-insensitive unique key on `student_id`? -/
def idMatches (r : Row) (sid : String) : Bool :=
  match studentIdOf r with
  | some w => eqCI w sid
  | none => false

/-- Update set of the primary importer's `ON DUPLICATE` fallback:
`columns.filter(c => c !== 'student_id' && row[c] non-empty)`. -/
def updatesOf (row : Row) : List (String × String) :=
  row.filterMap (fun p =>
    if p.1 = "student_id" then none
    else
      match p.2 with
      | none => none
      | some v => if v = "" then none else some (p.1, v))

/-- Apply `UPDATE students SET c1 = v1, ...` to one row. -/
def applyUpdates (us : List (String × String)) (s : Row) : Row :=
  us.foldl (fun acc p => aset p.1 (some p.2) acc) s

/-- Outcome of one iteration of the primary importer's row loop:
counted in `insertedCount`, counted in `errorCount`, or counted in neither
(the empty-row `continue`, and the duplicate whose update set is empty). -/
inductive RowOutcome
  | processed
  | failed
  | skipped
deriving DecidableEq

/-- One iteration of the primary importer's row loop (`src/server.js`
lines 260-319): filter out blank values, skip if nothing is left, try the
`INSERT` (which fails on an unknown column or a missing `NOT NULL` field),
and on `ER_DUP_ENTRY` fall back to an `UPDATE` of the supplied non-blank
non-`student_id` fields. -/
def upsertRow (db : Db) (row : Row) : Db × RowOutcome :=
  if (validEntries row).isEmpty then (db, .skipped)
  else if (validEntries row).any (fun e => !(db.studentCols.contains e.1)) then
    (db, .failed)
  else if requiredCols.any (fun c => !(((validEntries row).map Prod.fst).contains c)) then
    (db, .failed)
  else
    match (alookup "student_id" row).join with
    | none => (db, .failed)
    | some sid =>
      if db.students.any (fun s => idMatches s sid) then
        if (updatesOf row).isEmpty then (db, .skipped)
        else
          ({ db with students := db.students.map (fun s =>
              if idMatches s sid then applyUpdates (updatesOf row) s else s) },
           .processed)
      else
        ({ db with students :=
            db.students ++ [(validEntries row).map (fun p => (p.1, some p.2))] },
         .processed)

/-- Contribution of one row-loop iteration to `(insertedCount, errorCount)`. -/
def outcomeCounts : RowOutcome → Nat × Nat
  | .processed => (1, 0)
  | .failed => (0, 1)
  | .skipped => (0, 0)

/-- The primary importer's row loop, threading the state and accumulating
`insertedCount` and `errorCount`. -/
def processRows (db : Db) : List Row → Db × Nat × Nat
  | [] => (db, 0, 0)
  | r :: rs =>
    ((processRows (upsertRow db r).1 rs).1,
     (outcomeCounts (upsertRow db r).2).1 + (processRows (upsertRow db r).1 rs).2.1,
     (outcomeCounts (upsertRow db r).2).2 + (processRows (upsertRow db r).1 rs).2.2)

/-- Effect of `INSERT IGNORE INTO table_columns` with a given name: a new
registry row unless one with that name exists. -/
def registryAdd (db : Db) (c : String) : Db :=
  if db.registry.contains c then db else { db with registry := db.registry ++ [c] }

/-- The primary importer's per-new-column step (`src/server.js` lines
234-252): `INSERT IGNORE` into the registry, then `ALTER TABLE ... ADD`
only if `SHOW COLUMNS FROM students LIKE ?` matched nothing; any error is
swallowed by the per-column `catch`. -/
def importAddCol (db : Db) (c : String) : Db :=
  if (registryAdd db c).studentCols.any (fun d => likeM (lcs c) (lcs d)) then
    registryAdd db c
  else if c = "" then registryAdd db c
  else { registryAdd db c with studentCols := (registryAdd db c).studentCols ++ [c] }

/-- Response body of the primary variant's POST `/api/upload`. -/
structure ImportResult where
  recordsProcessed : Nat
  recordsFailed : Nat
  newColumnsAdded : List String
deriving DecidableEq

/-- POST `/api/upload` of the primary variant (`src/server.js` lines
199-337): reject an empty sheet, detect new columns from the first row's
keys against the physical `students` columns, add them, then run the row
loop. -/
def importUpload (db : Db) (rows : List Row) : Except ApiError (Db × ImportResult) :=
  match rows with
  | [] => .error .validationError
  | r0 :: _ =>
    .ok ((processRows
            (((r0.map Prod.fst).filter
                (fun c => !(db.studentCols.contains c))).foldl importAddCol db)
            rows).1,
         { recordsProcessed :=
             (processRows
               (((r0.map Prod.fst).filter
                   (fun c => !(db.studentCols.contains c))).foldl importAddCol db)
               rows).2.1,
           recordsFailed :=
             (processRows
               (((r0.map Prod.fst).filter
                   (fun c => !(db.studentCols.contains c))).foldl importAddCol db)
               rows).2.2,
           newColumnsAdded :=
             (r0.map Prod.fst).filter (fun c => !(db.studentCols.contains c)) })

/-- One iteration of the legacy importer's row loop (`src/unnamed/part_000`
lines 193-210): a single `INSERT ... ON DUPLICATE KEY UPDATE` over *all*
supplied columns (blanks included, `student_id` included); any error is
swallowed and the row is simply not counted. -/
def legacyUpsertRow (db : Db) (row : Row) : Db × Bool :=
  if row.isEmpty then (db, false)
  else if row.any (fun p => !(db.studentCols.contains p.1)) then (db, false)
  else
    match (alookup "student_id" row).join with
    | none => (db, false)
    | some sid =>
      if db.students.any (fun s => idMatches s sid) then
        if row.any (fun p => requiredCols.contains p.1 && p.2 == none) then (db, false)
        else
          ({ db with students := db.students.map (fun s =>
              if idMatches s sid then row.foldl (fun acc p => aset p.1 p.2 acc) s else s) },
           true)
      else
        if requiredCols.any (fun c => !((row.map Prod.fst).contains c)) then (db, false)
        else if row.any (fun p => requiredCols.contains p.1 && p.2 == none) then (db, false)
        else ({ db with students := db.students ++ [row] }, true)

/-- The legacy importer's per-new-column step (`src/unnamed/part_000` lines
186-189): `INSERT IGNORE` into the registry and
`ALTER TABLE ... ADD COLUMN IF NOT EXISTS`; this loop has no `catch`, so an
`ALTER` syntax error (empty identifier) aborts the whole request. -/
def legacyAddCol (db : Db) (c : String) : Except ApiError Db :=
  if c = "" then .error .databaseError
  else if (registryAdd db c).studentCols.contains c then .ok (registryAdd db c)
  else .ok { registryAdd db c with
             studentCols := (registryAdd db c).studentCols ++ [c] }

/-- Response body of the legacy variant's POST `/api/upload`: note there is no
failed-records field. -/
structure LegacyImportResult where
  recordsProcessed : Nat
  newColumnsAdded : List String
deriving DecidableEq

/-- Keys of the JSON object the legacy variant's POST `/api/upload` returns on
success (`src/unnamed/part_000` lines 212-216). -/
def legacyUploadResponseFields : List String :=
  ["message", "recordsProcessed", "newColumnsAdded"]

/-- Keys of the JSON object the primary variant's POST `/api/upload` returns
on success (`src/server.js` lines 321-326). -/
def uploadResponseFields : List String :=
  ["message", "recordsProcessed", "recordsFailed", "newColumnsAdded"]

/-- The legacy importer's row loop, threading the state and accumulating
`insertedCount`. -/
def legacyProcessRows (db : Db) : List Row → Db × Nat
  | [] => (db, 0)
  | r :: rs =>
    ((legacyProcessRows (legacyUpsertRow db r).1 rs).1,
     (if (legacyUpsertRow db r).2 then 1 else 0) +
       (legacyProcessRows (legacyUpsertRow db r).1 rs).2)

/-- POST `/api/upload` of the legacy variant (`src/unnamed/part_000` lines
159-220): new columns are detected against the four fixed names plus the
registry, then the `ON DUPLICATE KEY UPDATE` row loop runs. -/
def legacyImportUpload (db : Db) (rows : List Row) :
    Except ApiError (Db × LegacyImportResult) :=
  match rows with
  | [] => .error .validationError
  | r0 :: _ =>
    ((r0.map Prod.fst).filter
        (fun c => !((baseColumns ++ db.registry).contains c))).foldlM
      legacyAddCol db |>.map (fun db1 =>
        ((legacyProcessRows db1 rows).1,
         { recordsProcessed := (legacyProcessRows db1 rows).2,
           newColumnsAdded := (r0.map Prod.fst).filter
             (fun c => !((baseColumns ++ db.registry).contains c)) }))

/-- One filter of GET `/api/students` applied to one row: the JS loop skips
falsy (empty) values, otherwise emits `column LIKE '%value%'`, evaluated
under the case-insensitive collation; a `NULL` attribute never matches. -/
def rowLike (fs : List (String × String)) (r : Row) : Bool :=
  fs.all (fun p =>
    p.2 == "" ||
    (match (alookup p.1 r).join with
     | some t => likeM (lcs ("%" ++ p.2 ++ "%")) (lcs t)
     | none => false))

/-- GET `/api/students` (both variants, `src/server.js` lines 340-359): build
`SELECT * FROM students WHERE 1=1 AND c LIKE ? ...` from every filter with
a non-empty value; a filter key that is not a physical column makes the
query itself fail (surfaced as a 500). -/
def findStudents (db : Db) (fs : List (String × String)) :
    Except ApiError (List Row) :=
  if fs.any (fun p => !(p.2 == "") && !(db.studentCols.contains p.1)) then
    .error .databaseError
  else .ok (db.students.filter (rowLike fs))

/-- Legal values of the `status` `ENUM` of `work_status`. -/
def workStatusEnum : List String := ["pending", "started", "completed"]

/-- Is a value assignable to the nullable `status` `ENUM` column? -/
def statusValueOk (status : Option String) : Bool :=
  match status with
  | none => true
  | some s => workStatusEnum.contains s

/-- POST `/api/work-status` (both variants, `src/server.js` lines 372-384):
no input validation; the four body fields go straight into
`INSERT INTO work_status (task, status, start_date, deadline)`, with absent
fields becoming SQL `NULL` (the mysql2 driver renders `undefined` as
`NULL`), so a missing `task`/`deadline` is a `NOT NULL` constraint error
(500) and a supplied explicit `NULL` `status` bypasses the column's
`'pending'` default. -/
def createWorkStatus (db : Db) (task status startDate deadline : Option String) :
    Db × Except ApiError Nat :=
  if task.isNone || deadline.isNone then (db, .error .databaseError)
  else if !(statusValueOk status) then (db, .error .databaseError)
  else
    ({ db with
        workItems := db.workItems ++
          [{ id := db.nextWorkId, task := task, status := status,
             start_date := startDate, deadline := deadline, completed_date := none }],
        nextWorkId := db.nextWorkId + 1 },
     .ok db.nextWorkId)

/-- PUT `/api/work-status/:id` (both variants, `src/server.js` lines 387-400):
`UPDATE work_status SET status = ?, completed_date = ? WHERE id = ?` and an
unconditional success response; with no matching row the statement touches
nothing and still succeeds. -/
def updateWorkStatus (db : Db) (id : Nat) (status completedDate : Option String) :
    Db × Except ApiError String :=
  if db.workItems.any (fun w => w.id == id) && !(statusValueOk status) then
    (db, .error .databaseError)
  else
    ({ db with workItems := db.workItems.map (fun w =>
        if w.id == id then { w with status := status, completed_date := completedDate }
        else w) },
     .ok "Work status updated")

/-- Substring test on character lists: is `v` a contiguous run of `t`? -/
def isSubList (v t : List Char) : Bool := t.tails.any (fun s => v.isPrefixOf s)

/-- Modelled from the spec: the spec's filter semantics for `find`,
"substring, case-insensitive containment against that attribute's text
value" (section 4.2), for comparison against the `LIKE`-based code path. -/
def substrCI (v t : String) : Bool := isSubList (lcs v) (lcs t)

/-- Does a filter value avoid every `LIKE` metacharacter (`%`, `_`, `\`)? -/
def metaFree (v : String) : Bool :=
  (lcs v).all (fun c => !(c == '%') && !(c == '_') && !(c == '\\'))

/-- Modelled from the spec: the spec's `find` row predicate (section 4.2) -
every filter with a non-empty value must hold as a case-insensitive
substring of the row's attribute text, filters combined with AND, empty
values ignored. -/
def specMatch (fs : List (String × String)) (r : Row) : Bool :=
  fs.all (fun p =>
    p.2 == "" ||
    (match (alookup p.1 r).join with
     | some t => substrCI p.2 t
     | none => false))

/-! ### Association-list lemmas -/

@[simp]
theorem alookup_nil {β : Type} (k : String) : alookup (β := β) k [] = none := rfl

@[simp]
theorem alookup_cons {β : Type} (k : String) (p : String × β) (l : List (String × β)) :
    alookup k (p :: l) = if p.1 = k then some p.2 else alookup k l := rfl

theorem alookup_aset_self (k : String) (v : Option String) (l : List (String × Option String)) :
    alookup k (aset k v l) = some v := by
  induction l with
  | nil => simp [aset]
  | cons p rest ih =>
    by_cases h : p.1 = k
    · simp [aset, h]
    · simp [aset, h, ih]

theorem alookup_aset_ne (c k : String) (v : Option String) (l : List (String × Option String))
    (h : c ≠ k) : alookup c (aset k v l) = alookup c l := by
  have hk : ¬ (k = c) := fun hh => h hh.symm
  induction l with
  | nil => simp [aset, hk]
  | cons p rest ih =>
    by_cases hp : p.1 = k
    · have hpc : ¬ (p.1 = c) := by rw [hp]; exact hk
      simp [aset, hp, hk, hpc]
    · simp [aset, hp, ih]

theorem alookup_mem {β : Type} {k : String} {v : β} {l : List (String × β)}
    (h : alookup k l = some v) : (k, v) ∈ l := by
  induction l with
  | nil => simp at h
  | cons p rest ih =>
    by_cases hp : p.1 = k
    · rw [alookup_cons, if_pos hp] at h
      injection h with h
      exact List.mem_cons.mpr (Or.inl (by cases p; simp_all))
    · rw [alookup_cons, if_neg hp] at h
      exact List.mem_cons.mpr (Or.inr (ih h))

theorem alookup_eq_of_mem_nodup {β : Type} {k : String} {v : β} {l : List (String × β)}
    (hnd : (l.map Prod.fst).Nodup) (h : (k, v) ∈ l) : alookup k l = some v := by
  induction l with
  | nil => simp at h
  | cons p rest ih =>
    simp only [List.map_cons, List.nodup_cons] at hnd
    rcases List.mem_cons.mp h with h1 | h1
    · simp [← h1]
    · have hk : ¬ (p.1 = k) := by
        intro he
        exact hnd.1 (he ▸ (List.mem_map.mpr ⟨(k, v), h1, rfl⟩))
      rw [alookup_cons, if_neg hk]
      exact ih hnd.2 h1

theorem alookup_key_mem {β : Type} {k : String} {l : List (String × β)}
    (h : k ∈ l.map Prod.fst) : ∃ v, alookup k l = some v := by
  induction l with
  | nil => simp at h
  | cons p rest ih =>
    by_cases hp : p.1 = k
    · exact ⟨p.2, by simp [hp]⟩
    · simp only [List.map_cons, List.mem_cons] at h
      rcases h with h | h
      · exact absurd h.symm hp
      · simpa [hp] using ih h

theorem alookup_key_not_mem {β : Type} {k : String} {l : List (String × β)}
    (h : k ∉ l.map Prod.fst) : alookup k l = none := by
  induction l with
  | nil => rfl
  | cons p rest ih =>
    simp only [List.map_cons, List.mem_cons] at h
    push_neg at h
    have h1 : ¬ (p.1 = k) := fun hh => h.1 hh.symm
    rw [alookup_cons, if_neg h1]
    exact ih h.2

/-! ### Lemmas about the importer's blank-value filters -/

theorem mem_validEntries {row : Row} {c : String} {v : String} :
    (c, v) ∈ validEntries row ↔ (c, some v) ∈ row ∧ v ≠ "" := by
  unfold validEntries
  rw [List.mem_filterMap]
  constructor
  · rintro ⟨⟨c2, v2⟩, hm, he⟩
    match v2 with
    | none => simp at he
    | some w =>
      by_cases hw : w = "" <;> simp [hw] at he
      refine ⟨?_, ?_⟩
      · rw [← he.1, ← he.2]; exact hm
      · rw [← he.2]; exact hw
  · rintro ⟨hm, hv⟩
    exact ⟨(c, some v), hm, by simp [hv]⟩

theorem validEntries_keys_sublist (row : Row) :
    List.Sublist ((validEntries row).map Prod.fst) (row.map Prod.fst) := by
  induction row with
  | nil => simp [validEntries]
  | cons p rest ih =>
    unfold validEntries at *
    match hp : p.2 with
    | none => simpa [List.filterMap_cons, hp] using List.Sublist.cons _ ih
    | some w =>
      by_cases hw : w = ""
      · simpa [List.filterMap_cons, hp, hw] using List.Sublist.cons _ ih
      · simpa [List.filterMap_cons, hp, hw] using List.Sublist.cons₂ p.1 ih

theorem validEntries_key_mem {row : Row} {c : String}
    (h : c ∈ (validEntries row).map Prod.fst) : c ∈ row.map Prod.fst :=
  (validEntries_keys_sublist row).subset h

theorem mem_updatesOf {row : Row} {c : String} {v : String} :
    (c, v) ∈ updatesOf row ↔ c ≠ "student_id" ∧ (c, some v) ∈ row ∧ v ≠ "" := by
  unfold updatesOf
  rw [List.mem_filterMap]
  constructor
  · rintro ⟨⟨c2, v2⟩, hm, he⟩
    by_cases hc : c2 = "student_id"
    · simp [hc] at he
    · match v2 with
      | none => simp [hc] at he
      | some w =>
        by_cases hw : w = "" <;> simp [hc, hw] at he
        refine ⟨?_, ?_, ?_⟩
        · rw [← he.1]; exact hc
        · rw [← he.1, ← he.2]; exact hm
        · rw [← he.2]; exact hw
  · rintro ⟨hc, hm, hv⟩
    exact ⟨(c, some v), hm, by simp [hc, hv]⟩

theorem updatesOf_keys_sublist (row : Row) :
    List.Sublist ((updatesOf row).map Prod.fst) (row.map Prod.fst) := by
  induction row with
  | nil => simp [updatesOf]
  | cons p rest ih =>
    unfold updatesOf at *
    by_cases hc : p.1 = "student_id"
    · simpa [List.filterMap_cons, hc] using List.Sublist.cons _ ih
    · match hp : p.2 with
      | none => simpa [List.filterMap_cons, hc, hp] using List.Sublist.cons _ ih
      | some w =>
        by_cases hw : w = ""
        · simpa [List.filterMap_cons, hc, hp, hw] using List.Sublist.cons _ ih
        · simpa [List.filterMap_cons, hc, hp, hw] using List.Sublist.cons₂ p.1 ih

theorem stuid_not_mem_updatesOf (row : Row) :
    "student_id" ∉ (updatesOf row).map Prod.fst := by
  intro h
  rcases List.mem_map.mp h with ⟨⟨c, v⟩, hm, he⟩
  exact (mem_updatesOf.mp hm).1 he

theorem alookup_applyUpdates (us : List (String × String)) (s : Row) (c : String)
    (hnd : (us.map Prod.fst).Nodup) :
    alookup c (applyUpdates us s) =
      match alookup c us with
      | some v => some (some v)
      | none => alookup c s := by
  induction us generalizing s with
  | nil => simp [applyUpdates]
  | cons p rest ih =>
    simp only [List.map_cons, List.nodup_cons] at hnd
    have step : applyUpdates (p :: rest) s = applyUpdates rest (aset p.1 (some p.2) s) := rfl
    rw [step, ih _ hnd.2]
    by_cases hc : p.1 = c
    · have hnone : alookup c rest = none := by
        refine alookup_key_not_mem ?_
        rw [← hc]
        exact fun hm => hnd.1 hm
      rw [hnone, alookup_cons, if_pos hc, hc, alookup_aset_self]
    · rw [alookup_cons, if_neg hc]
      match h : alookup c rest with
      | some v => rfl
      | none => simp [alookup_aset_ne c p.1 _ s (fun he => hc he.symm)]

/-! ### LIKE-pattern lemmas -/

/-- A character that is not a `LIKE` metacharacter. -/
def nonMetaChar (c : Char) : Bool := !(c == '%') && !(c == '_') && !(c == '\\')

theorem metaFree_eq_all (v : String) : metaFree v = (lcs v).all nonMetaChar := rfl

theorem tails_any_isEmpty (t : List Char) : t.tails.any (fun s => s.isEmpty) = true := by
  induction t with
  | nil => rfl
  | cons d ts ih => simp [List.tails_cons, ih]

theorem likeLex_cons_lit (c : Char) (ps : List Char)
    (h1 : ¬ (c = '%')) (h2 : ¬ (c = '_')) (h3 : ¬ (c = '\\')) :
    likeLex (c :: ps) = .lit c :: likeLex ps := by
  rw [likeLex, if_neg h3, if_neg h1, if_neg h2]

theorem likeLex_append_lit (v rest : List Char) (hv : v.all nonMetaChar = true) :
    likeLex (v ++ rest) = v.map LikeTok.lit ++ likeLex rest := by
  induction v with
  | nil => simp
  | cons c v2 ih =>
    simp only [List.all_cons, Bool.and_eq_true, nonMetaChar, Bool.not_eq_true',
      beq_eq_false_iff_ne, ne_eq] at hv
    rw [List.cons_append, likeLex_cons_lit c _ hv.1.1.1 hv.1.1.2 hv.1.2,
      ih hv.2, List.map_cons, List.cons_append]

theorem likeRun_pct (ps : List LikeTok) (t : List Char) :
    likeRun (.pct :: ps) t = t.tails.any (fun s => likeRun ps s) := by
  rw [likeRun]

theorem likeRun_lits_pct (v t : List Char) :
    likeRun (v.map LikeTok.lit ++ [LikeTok.pct]) t = v.isPrefixOf t := by
  induction v generalizing t with
  | nil =>
    rw [List.map_nil, List.nil_append, likeRun_pct]
    have he : (fun s : List Char => likeRun [] s) = (fun s : List Char => s.isEmpty) := rfl
    rw [he, tails_any_isEmpty]
    simp [List.isPrefixOf]
  | cons c v2 ih =>
    match t with
    | [] => rfl
    | d :: ts =>
      rw [List.map_cons, List.cons_append, likeRun]
      show (d == c && likeRun (v2.map LikeTok.lit ++ [LikeTok.pct]) ts) =
        List.isPrefixOf (c :: v2) (d :: ts)
      rw [ih ts]
      show (d == c && v2.isPrefixOf ts) = (c == d && v2.isPrefixOf ts)
      rw [Bool.beq_comm]

theorem likeM_sub (v t : List Char) (hv : v.all nonMetaChar = true) :
    likeM ('%' :: (v ++ ['%'])) t = isSubList v t := by
  unfold likeM
  have hx : likeLex ('%' :: (v ++ ['%'])) = .pct :: (v.map LikeTok.lit ++ [LikeTok.pct]) := by
    rw [likeLex]
    rw [if_neg (by decide : ¬ ('%' = '\\')), if_pos rfl]
    rw [likeLex_append_lit v _ hv]
    rfl
  rw [hx, likeRun_pct]
  unfold isSubList
  induction t.tails with
  | nil => rfl
  | cons s ss ih => simp only [List.any_cons, ih, likeRun_lits_pct]

theorem lcs_append (a b : String) : lcs (a ++ b) = lcs a ++ lcs b := by
  simp [lcs]

theorem lcs_pct_wrap (v : String) :
    lcs ("%" ++ v ++ "%") = '%' :: (lcs v ++ ['%']) := by
  rw [lcs_append, lcs_append]
  rfl

theorem likeM_pct_wrap_eq_substr (v t : String) (hv : metaFree v = true) :
    likeM (lcs ("%" ++ v ++ "%")) (lcs t) = substrCI v t := by
  rw [lcs_pct_wrap, likeM_sub (lcs v) (lcs t) (metaFree_eq_all v ▸ hv)]
  rfl

theorem rowLike_eq_specMatch (fs : List (String × String)) (r : Row)
    (hmeta : ∀ p ∈ fs, metaFree p.2 = true) :
    rowLike fs r = specMatch fs r := by
  unfold rowLike specMatch
  induction fs with
  | nil => rfl
  | cons p fs2 ih =>
    have hp := hmeta p (List.mem_cons_self p fs2)
    have ih2 := ih (fun q hq => hmeta q (List.mem_cons_of_mem p hq))
    simp only [List.all_cons, ih2]
    congr 1
    congr 1
    match (alookup p.1 r).join with
    | some t => exact likeM_pct_wrap_eq_substr p.2 t hp
    | none => rfl

/-! ### Concrete fixtures -/

/-- A freshly created database: empty registry, the four fixed columns. -/
def emptyDb : Db :=
  { registry := [], studentCols := baseColumns, students := [], workItems := [],
    nextWorkId := 1 }

/-- One stored student used by several scenarios. -/
def aliceRow : Row :=
  [("student_id", some "S1"), ("name", some "Alice"),
   ("class", some "Class 10A"), ("section", some "A")]

/-- A database holding just `aliceRow`. -/
def aliceDb : Db := { emptyDb with students := [aliceRow] }

/-! ### C3 -/

/-- C3: `removeColumn` applied to any of the four fixed attribute names
fails with `ValidationError` in every registry state, before any query
runs, so nothing is removed; the handler is identical in both variants. -/
theorem c3_removeColumn_base_validation (db : Db) (name : String)
    (h : name ∈ baseColumns) :
    deleteColumn db name = (db, .error .validationError) := by
  unfold deleteColumn
  have hc : baseColumns.contains name = true := by simpa using h
  rw [hc]
  rfl

/-- C3 witness: dropping `class` from a populated registry state is rejected
with `ValidationError` and the state is untouched. -/
theorem c3_removeColumn_base_validation_witness :
    "class" ∈ baseColumns ∧
    deleteColumn aliceDb "class" = (aliceDb, .error .validationError) :=
  ⟨by decide, c3_removeColumn_base_validation aliceDb "class" (by decide)⟩

/-! ### C9 -/

/-- C9: updating a work item whose id matches nothing returns the success
response and leaves every stored work item unchanged - a silent no-op,
not an error; the handler is identical in both variants. -/
theorem c9_update_unknown_id_noop (db : Db) (id : Nat)
    (status completedDate : Option String)
    (h : db.workItems.all (fun w => w.id != id) = true) :
    updateWorkStatus db id status completedDate =
      (db, .ok "Work status updated") := by
  unfold updateWorkStatus
  have hne : ∀ w ∈ db.workItems, ¬ (w.id = id) := by
    intro w hw
    have := List.all_eq_true.mp h w hw
    simpa using this
  have hany : db.workItems.any (fun w => w.id == id) = false := by
    rw [List.any_eq_false]
    intro w hw
    simpa using hne w hw
  have hcond : (db.workItems.any (fun w => w.id == id) && !(statusValueOk status)) = false := by
    rw [hany, Bool.false_and]
  have hmap : db.workItems.map (fun w =>
      if w.id == id then { w with status := status, completed_date := completedDate }
      else w) = db.workItems := by
    have := List.map_congr_left (l := db.workItems)
      (f := fun w => if w.id == id then
        { w with status := status, completed_date := completedDate } else w)
      (g := fun w => w) (by
        intro w hw
        simp [hne w hw])
    simpa using this
  rw [hcond, if_neg Bool.false_ne_true, hmap]

/-- The work-item store used by the C9 witness. -/
def c9Db : Db :=
  { emptyDb with
      workItems := [{ id := 1, task := some "Order uniforms", status := some "pending",
                      start_date := none, deadline := some "2024-01-05",
                      completed_date := none }],
      nextWorkId := 2 }

/-- C9 witness: id 7 matches no stored item; the update succeeds and the
store is unchanged. -/
theorem c9_update_unknown_id_noop_witness :
    c9Db.workItems.all (fun w => w.id != 7) = true ∧
    updateWorkStatus c9Db 7 (some "started") (some "2024-01-06") =
      (c9Db, .ok "Work status updated") :=
  ⟨by decide, c9_update_unknown_id_noop c9Db 7 (some "started") (some "2024-01-06")
    (by decide)⟩

/-! ### C7 -/

/-- C7 counterexample: a filter mapping holding an unknown key alongside an
ordinary valid filter makes `find` fail with the generic database error
(HTTP 500 from the unknown-column SQL error), not with `ValidationError`
as the claim states. -/
theorem c7_unknown_key_not_validation_cx :
    "nickname" ∉ listColumns aliceDb ∧
    findStudents aliceDb [("class", "10a"), ("nickname", "bob")] =
      .error .databaseError ∧
    findStudents aliceDb [("class", "10a"), ("nickname", "bob")] ≠
      .error .validationError := by
  decide

/-- C7 as amended: for every filter mapping containing a key, with a
non-empty value, that is not a physical column of `students`, `find` fails
- but with the generic database error (500), not `ValidationError`; and a
filter entry whose value is empty is ignored entirely - removing it from
any position of any filter mapping never changes `find`'s result - so
unknown keys carrying empty values are not rejected.  The handler is
identical in both variants. -/
theorem c7_unknown_filter_key (db : Db) (fs : List (String × String))
    (k v : String)
    (hmem : (k, v) ∈ fs) (hv : ¬ (v = ""))
    (hk : db.studentCols.contains k = false) :
    findStudents db fs = .error .databaseError ∧
    findStudents db fs ≠ .error .validationError ∧
    (∀ (fs1 fs2 : List (String × String)) (k2 : String),
      findStudents db (fs1 ++ (k2, "") :: fs2) = findStudents db (fs1 ++ fs2)) := by
  have herr : findStudents db fs = .error .databaseError := by
    unfold findStudents
    have hany : fs.any
        (fun p => !(p.2 == "") && !(db.studentCols.contains p.1)) = true := by
      rw [List.any_eq_true]
      refine ⟨(k, v), hmem, ?_⟩
      have hnm : k ∉ db.studentCols := by simpa using hk
      simp [hv, hnm]
    rw [hany, if_pos rfl]
  refine ⟨herr, ?_, ?_⟩
  · rw [herr]
    decide
  · intro fs1 fs2 k2
    unfold findStudents
    have hany2 : (fs1 ++ (k2, "") :: fs2).any
        (fun p => !(p.2 == "") && !(db.studentCols.contains p.1)) =
        (fs1 ++ fs2).any
        (fun p => !(p.2 == "") && !(db.studentCols.contains p.1)) := by
      rw [List.any_append, List.any_cons, List.any_append]
      simp
    have hrow : rowLike (fs1 ++ (k2, "") :: fs2) = rowLike (fs1 ++ fs2) := by
      funext r
      unfold rowLike
      rw [List.all_append, List.all_cons, List.all_append]
      simp
    rw [hany2, hrow]

/-- C7 witness: the amended statement applied to a mapping holding the
unknown key `nickname` next to an ordinary `section` filter, plus the
empty-value-ignored part at a concrete mapping. -/
theorem c7_unknown_filter_key_witness :
    ("nickname", "bob") ∈ [(("section" : String), ("" : String)), ("nickname", "bob")] ∧
    aliceDb.studentCols.contains "nickname" = false ∧
    findStudents aliceDb [("section", ""), ("nickname", "bob")] =
      .error .databaseError ∧
    findStudents aliceDb ([("class", "10a")] ++ ("nickname", "") :: []) =
      findStudents aliceDb ([("class", "10a")] ++ []) :=
  ⟨by decide, by decide,
   (c7_unknown_filter_key aliceDb [("section", ""), ("nickname", "bob")]
     "nickname" "bob" (by decide) (by decide) (by decide)).1,
   (c7_unknown_filter_key aliceDb [("section", ""), ("nickname", "bob")]
     "nickname" "bob" (by decide) (by decide) (by decide)).2.2
     [("class", "10a")] [] "nickname"⟩


/-! ### C8 -/

/-- C8 counterexample: work-item create with a missing `task` fails with the
generic database error (a `NOT NULL` violation surfaced as 500), not
`ValidationError`; and create without a `status` stores SQL `NULL`, not the
`pending` default, because the insert always supplies the status column. -/
theorem c8_create_no_validation_cx :
    createWorkStatus emptyDb none (some "pending") none (some "2024-01-05") =
      (emptyDb, .error .databaseError) ∧
    (createWorkStatus emptyDb none (some "pending") none (some "2024-01-05")).2 ≠
      .error .validationError ∧
    ((createWorkStatus emptyDb (some "Order uniforms") none none
        (some "2024-01-05")).1.workItems.map WorkItem.status) = [none] := by
  decide

/-- C8 as amended: the handler performs no input validation - a missing
`task` or `deadline` reaches the database and fails there with a
`NOT NULL` constraint error surfaced as a 500 (not `ValidationError`), and
a request without `status` inserts an explicit SQL `NULL` status, so the
column's `'pending'` default is bypassed and the created work item has a
`NULL` status. The handler is identical in both variants. -/
theorem c8_workitem_create (db : Db) (task status startDate deadline : Option String) :
    ((task.isNone || deadline.isNone) = true →
      createWorkStatus db task status startDate deadline =
        (db, .error .databaseError)) ∧
    (∀ t d, task = some t → deadline = some d → status = none →
      createWorkStatus db task status startDate deadline =
        ({ db with
            workItems := db.workItems ++
              [{ id := db.nextWorkId, task := some t, status := none,
                 start_date := startDate, deadline := some d,
                 completed_date := none }],
            nextWorkId := db.nextWorkId + 1 },
         .ok db.nextWorkId)) := by
  constructor
  · intro h
    unfold createWorkStatus
    rw [h]
    rfl
  · intro t d ht hd hs
    subst ht
    subst hd
    subst hs
    unfold createWorkStatus
    rfl

/-- C8 witness: the amended statement evaluated on concrete inputs. -/
theorem c8_workitem_create_witness :
    createWorkStatus emptyDb none none none none = (emptyDb, .error .databaseError) ∧
    createWorkStatus emptyDb (some "Order uniforms") none none (some "2024-01-05") =
      ({ emptyDb with
          workItems := [{ id := 1, task := some "Order uniforms", status := none,
                          start_date := none, deadline := some "2024-01-05",
                          completed_date := none }],
          nextWorkId := 2 },
       .ok 1) :=
  ⟨(c8_workitem_create emptyDb none none none none).1 (by decide),
   by
    have := (c8_workitem_create emptyDb (some "Order uniforms") none none
      (some "2024-01-05")).2 "Order uniforms" "2024-01-05" rfl rfl rfl
    simpa using this⟩

/-! ### C2 -/

/-- C2 counterexample: the name `na%` is neither registered nor a live
student attribute, yet `addColumn` rejects it with `ConflictError`, because
the guard `SHOW COLUMNS FROM students LIKE ?` treats the name as a `LIKE`
pattern and `na%` matches the live column `name`. -/
theorem c2_addColumn_like_cx :
    emptyDb.registry.contains "na%" = false ∧
    emptyDb.studentCols.contains "na%" = false ∧
    addColumn emptyDb "na%" = (emptyDb, .error .conflictError) := by
  decide

/-- C2 as amended: for every non-empty name that is not registered and does
not match any live student attribute under `LIKE`-pattern semantics (for
wildcard-free names that is exactly: is not a live attribute), `addColumn`
succeeds, `listColumns` then contains the name exactly once, after the four
fixed names, and a second `addColumn` of the same name fails with
`ConflictError` changing nothing. -/
theorem c2_addColumn_then_list (db : Db) (name : String)
    (hreg : db.registry.contains name = false)
    (hlive : db.studentCols.all (fun d => !(likeM (lcs name) (lcs d))) = true)
    (hne : name ≠ "")
    (hbase : ∀ b ∈ baseColumns, b ∈ db.studentCols) :
    ∃ db1,
      addColumn db name = (db1, .ok name) ∧
      listColumns db1 = baseColumns ++ db.registry ++ [name] ∧
      name ∉ baseColumns ∧
      (listColumns db1).count name = 1 ∧
      addColumn db1 name = (db1, .error .conflictError) := by
  have hany : db.studentCols.any (fun d => likeM (lcs name) (lcs d)) = false := by
    rw [List.any_eq_false]
    intro d hd
    have := List.all_eq_true.mp hlive d hd
    simpa using this
  have hnb : name ∉ baseColumns := by
    intro hmem
    have hmem2 : name ∈ db.studentCols := hbase name hmem
    have hfalse := List.all_eq_true.mp hlive name hmem2
    have hself : likeM (lcs name) (lcs name) = true := by
      rcases (by simpa [baseColumns] using hmem :
        name = "student_id" ∨ name = "name" ∨ name = "class" ∨ name = "section") with
        h | h | h | h <;> rw [h] <;> decide
    simp [hself] at hfalse
  have hnr : name ∉ db.registry := by simpa using hreg
  refine ⟨{ db with
              registry := db.registry ++ [name]
              studentCols := db.studentCols ++ [name] },
          ?_, ?_, hnb, ?_, ?_⟩
  · unfold addColumn
    rw [hreg, if_neg Bool.false_ne_true, hany, if_neg Bool.false_ne_true, if_neg hne]
  · simp [listColumns]
  · simp only [listColumns]
    rw [List.count_append, List.count_append]
    rw [List.count_eq_zero.mpr hnb, List.count_eq_zero.mpr hnr]
    simp [List.count_cons]
  · unfold addColumn
    have hc : (db.registry ++ [name]).contains name = true := by simp
    rw [hc]
    rfl

/-- C2 witness: adding the fresh name `house` to a fresh database. -/
theorem c2_addColumn_then_list_witness :
    emptyDb.registry.contains "house" = false ∧
    ∃ db1,
      addColumn emptyDb "house" = (db1, .ok "house") ∧
      listColumns db1 = baseColumns ++ emptyDb.registry ++ ["house"] ∧
      "house" ∉ baseColumns ∧
      (listColumns db1).count "house" = 1 ∧
      addColumn db1 "house" = (db1, .error .conflictError) :=
  ⟨by decide,
   c2_addColumn_then_list emptyDb "house" (by decide) (by decide) (by decide)
     (by decide)⟩

/-! ### C4 -/

/-- C4 counterexample: the filter value `1_a` is not a substring of
`Class 10A` in any case folding, yet `find` returns the record, because the
value is used as a `LIKE` pattern where `_` matches any one character
(`1_a` matches `10A`); so find's result is not "exactly the records whose
attribute contains the filter value as a case-insensitive substring". -/
theorem c4_find_wildcard_cx :
    findStudents aliceDb [("class", "1_a")] = .ok [aliceRow] ∧
    specMatch [("class", "1_a")] aliceRow = false := by
  decide

/-- C4 as amended: `find` filters by the case-insensitive `LIKE` pattern
`%value%`, in which `%`, `_` and `\` are metacharacters; restricted to
filter values free of those characters this is exactly the claimed
case-insensitive substring containment (filters combined with AND against
the attribute's text value, empty values ignored, `NULL` attributes never
matching), and with no filters supplied every record is returned.
The handler is identical in both variants. -/
theorem c4_find_substring_ci (db : Db) (fs : List (String × String))
    (hkeys : ∀ p ∈ fs, ¬ (p.2 = "") → p.1 ∈ db.studentCols)
    (hmeta : ∀ p ∈ fs, metaFree p.2 = true) :
    findStudents db fs = .ok (db.students.filter (specMatch fs)) ∧
    findStudents db [] = .ok db.students := by
  constructor
  · unfold findStudents
    have hany : fs.any (fun p => !(p.2 == "") && !(db.studentCols.contains p.1)) = false := by
      rw [List.any_eq_false]
      intro p hp
      by_cases hv : p.2 = ""
      · simp [hv]
      · have := hkeys p hp hv
        simp [hv, this]
    rw [hany, if_neg Bool.false_ne_true]
    have hfun : rowLike fs = specMatch fs :=
      funext (fun r => rowLike_eq_specMatch fs r hmeta)
    rw [hfun]
  · unfold findStudents
    have h0 : rowLike [] = fun _ : Row => true := funext (fun r => rfl)
    rw [List.any_nil, if_neg Bool.false_ne_true, h0, List.filter_true]

/-- C4 witness: the spec's own example - the filter `class=10a` matches the
stored value `Class 10A` - evaluated through the amended theorem. -/
theorem c4_find_substring_ci_witness :
    (∀ p ∈ [(("class" : String), ("10a" : String))],
      ¬ (p.2 = "") → p.1 ∈ aliceDb.studentCols) ∧
    findStudents aliceDb [("class", "10a")] =
      .ok (aliceDb.students.filter (specMatch [("class", "10a")])) ∧
    aliceDb.students.filter (specMatch [("class", "10a")]) = [aliceRow] :=
  ⟨by decide,
   (c4_find_substring_ci aliceDb [("class", "10a")] (by decide) (by decide)).1,
   by decide⟩

/-! ### C1 -/

theorem alookup_map_some (l : List (String × String)) (c : String) :
    alookup c (l.map (fun p => (p.1, some p.2))) = (alookup c l).map some := by
  induction l with
  | nil => rfl
  | cons p rest ih =>
    by_cases h : p.1 = c
    · simp [h]
    · simp [h, ih]

theorem upsertRow_shape (db : Db) (row : Row) :
    (upsertRow db row).1 = db ∨
    (upsertRow db row).1 =
      { db with students :=
          db.students ++ [(validEntries row).map (fun p => (p.1, some p.2))] } ∨
    ∃ sid, (upsertRow db row).1 =
      { db with students := db.students.map (fun s =>
          if idMatches s sid then applyUpdates (updatesOf row) s else s) } := by
  unfold upsertRow
  repeat' split
  all_goals first
    | (left; rfl)
    | (right; left; rfl)
    | (right; right; exact ⟨_, rfl⟩)

/-- C1 as amended: in the primary variant the claim holds - one importer
upsert step never shrinks the store; rows already stored keep their
`student_id` unchanged, every changed attribute of an updated row is
explained by a supplied non-null non-empty value of a non-`student_id`
column (so blanks never overwrite and update touches only supplied
non-empty fields), and every attribute of a freshly inserted row comes from
a supplied non-null non-empty value (so insert writes only the supplied
non-empty fields).  The legacy variant's `ON DUPLICATE KEY UPDATE` loop
violates the claim (see the counterexample). -/
theorem c1_upsert_excludes_blanks (db : Db) (row : Row) (db2 : Db)
    (hnd : (row.map Prod.fst).Nodup)
    (hdb2 : (upsertRow db row).1 = db2) :
    db.students.length ≤ db2.students.length ∧
    (∀ i, (h1 : i < db.students.length) → (h2 : i < db2.students.length) →
      alookup "student_id" (db2.students[i]) =
        alookup "student_id" (db.students[i]) ∧
      (∀ c : String,
        alookup c (db2.students[i]) = alookup c (db.students[i]) ∨
        (¬ (c = "student_id") ∧ ∃ v, ¬ (v = "") ∧
          alookup c row = some (some v) ∧
          alookup c (db2.students[i]) = some (some v)))) ∧
    (∀ i, db.students.length ≤ i → (h2 : i < db2.students.length) →
      ∀ c v, alookup c (db2.students[i]) = some v →
        ∃ w, v = some w ∧ ¬ (w = "") ∧ alookup c row = some (some w)) := by
  rcases upsertRow_shape db row with hs | hs | ⟨sid, hs⟩ <;> rw [hdb2] at hs <;> subst hs
  · exact ⟨Nat.le_refl _,
      fun i h1 h2 => ⟨rfl, fun c => Or.inl rfl⟩,
      fun i hge h2 => absurd h2 (by omega)⟩
  · refine ⟨by simp, ?_, ?_⟩
    · intro i h1 h2
      dsimp only at h2 ⊢
      have he : (db.students ++
          [(validEntries row).map (fun p => (p.1, some p.2))])[i] =
          db.students[i] := List.getElem_append_left h1
      rw [he]
      exact ⟨rfl, fun c => Or.inl rfl⟩
    · intro i hge h2 c v hv
      have hlen : i < db.students.length + 1 := by simpa using h2
      have hi : i = db.students.length := by omega
      subst hi
      have he : (db.students ++
          [(validEntries row).map (fun p => (p.1, some p.2))])[db.students.length] =
          (validEntries row).map (fun p => (p.1, some p.2)) := by
        simp
      rw [he] at hv
      rw [alookup_map_some] at hv
      match hve : alookup c (validEntries row) with
      | none => rw [hve] at hv; simp at hv
      | some w =>
        rw [hve] at hv
        have hvw : v = some w := by
          simpa using hv.symm
        have hmem := alookup_mem hve
        have hrow := mem_validEntries.mp hmem
        exact ⟨w, hvw, hrow.2, alookup_eq_of_mem_nodup hnd hrow.1⟩
  · have hu : ((updatesOf row).map Prod.fst).Nodup :=
      (updatesOf_keys_sublist row).nodup hnd
    refine ⟨by simp, ?_, ?_⟩
    · intro i h1 h2
      dsimp only at h2 ⊢
      have he : (db.students.map (fun s =>
          if idMatches s sid then applyUpdates (updatesOf row) s else s))[i] =
          (if idMatches (db.students[i]) sid then
            applyUpdates (updatesOf row) (db.students[i]) else db.students[i]) := by
        simp
      rw [he]
      by_cases hm : idMatches (db.students[i]) sid = true
      · rw [if_pos hm]
        constructor
        · rw [alookup_applyUpdates _ _ _ hu,
            alookup_key_not_mem (stuid_not_mem_updatesOf row)]
        · intro c
          rw [alookup_applyUpdates _ _ _ hu]
          match hlu : alookup c (updatesOf row) with
          | none => exact Or.inl rfl
          | some v =>
            have hmem := mem_updatesOf.mp (alookup_mem hlu)
            exact Or.inr ⟨hmem.1, v, hmem.2.2,
              alookup_eq_of_mem_nodup hnd hmem.2.1, rfl⟩
      · rw [if_neg hm]
        exact ⟨rfl, fun c => Or.inl rfl⟩
    · intro i hge h2
      have : i < db.students.length := by simpa using h2
      exact absurd this (by omega)

/-- C1 counterexample: through the legacy importer, upserting the row
`student_id=S1, name=""` onto a store whose `S1` has `name="Alice"`
overwrites the non-empty stored name with the empty string (the
`ON DUPLICATE KEY UPDATE` clause updates every supplied column, blanks and
`student_id` included), which the claim says never happens. -/
theorem c1_blank_overwrite_cx :
    aliceDb.students.map (alookup "name") = [some (some "Alice")] ∧
    (legacyImportUpload aliceDb
        [[("student_id", some "S1"), ("name", some ""),
          ("class", some "Class 10A"), ("section", some "A")]]).map
      (fun p => p.1.students.map (alookup "name")) = .ok [some (some "")] := by
  decide

/-- The updated row used by the C1 witness. -/
def c1Row : Row :=
  [("student_id", some "S1"), ("name", some "Bobby"),
   ("class", some "Class 10A"), ("section", some "A")]

/-- C1 witness: the amended invariants applied to a concrete update. -/
theorem c1_upsert_excludes_blanks_witness :
    (c1Row.map Prod.fst).Nodup ∧
    aliceDb.students.length ≤ ((upsertRow aliceDb c1Row).1).students.length :=
  ⟨by decide,
   (c1_upsert_excludes_blanks aliceDb c1Row ((upsertRow aliceDb c1Row).1)
     (by decide) rfl).1⟩

/-! ### C10 -/

/-- A parsed row every value of which is empty, null or undefined, so the
primary importer's row loop skips it (`Skipping empty row`). -/
def isBlankRow (row : Row) : Bool := (validEntries row).isEmpty

theorem upsertRow_blank (db : Db) (r : Row) (h : isBlankRow r = true) :
    upsertRow db r = (db, .skipped) := by
  unfold upsertRow
  rw [show (validEntries r).isEmpty = true from h]
  rfl

/-- The two-row sheet of the C10 example: one valid row, one all-blank row. -/
def c10Rows : List Row :=
  [[("student_id", some "S1"), ("name", some "Nia"),
    ("class", some "C"), ("section", some "A")],
   [("name", some ""), ("class", none)]]

/-- C10: a parsed row whose values are all empty, null or undefined is
skipped entirely by the primary importer's row loop - removing it from any
position changes neither the final state nor either tally - and hence
`processed + failed` can be strictly below the number of parsed rows, as on
the concrete two-row sheet where the result is `processed=1, failed=0`. -/
theorem c10_blank_row_skipped (db : Db) (l1 l2 : List Row) (r : Row)
    (h : isBlankRow r = true) :
    processRows db (l1 ++ r :: l2) = processRows db (l1 ++ l2) ∧
    ((importUpload emptyDb c10Rows).map
      (fun p => p.2.recordsProcessed + p.2.recordsFailed) = .ok 1 ∧
     c10Rows.length = 2) := by
  refine ⟨?_, by decide, by decide⟩
  induction l1 generalizing db with
  | nil =>
    rw [List.nil_append, List.nil_append]
    show processRows db (r :: l2) = processRows db l2
    rw [processRows, upsertRow_blank db r h]
    show ((processRows db l2).1, 0 + (processRows db l2).2.1,
      0 + (processRows db l2).2.2) = processRows db l2
    simp
  | cons r1 l1x ih =>
    rw [List.cons_append, List.cons_append, processRows, processRows, ih]

/-- C10 witness: the skip invariance applied with a concrete blank row. -/
theorem c10_blank_row_skipped_witness :
    isBlankRow [(("name" : String), some "")] = true ∧
    processRows emptyDb ([] ++ [(("name" : String), some "")] :: []) =
      processRows emptyDb ([] ++ []) :=
  ⟨by decide,
   (c10_blank_row_skipped emptyDb [] [] [("name", some "")] (by decide)).1⟩

/-! ### C5 -/

/-- A fully valid sheet row with the given id and name. -/
def c5ValidRow (i n : String) : Row :=
  [("student_id", some i), ("name", some n),
   ("class", some "Class 10A"), ("section", some "A")]

/-- Ten parsed rows: nine valid ones and one missing `student_id`. -/
def c5Rows : List Row :=
  [c5ValidRow "S1" "N1", c5ValidRow "S2" "N2", c5ValidRow "S3" "N3",
   c5ValidRow "S4" "N4", c5ValidRow "S5" "N5", c5ValidRow "S6" "N6",
   c5ValidRow "S7" "N7", c5ValidRow "S8" "N8", c5ValidRow "S9" "N9",
   [("name", some "NoId"), ("class", some "Class 10A"), ("section", some "A")]]

/-- C5 as amended: in the primary variant a per-row failure is tallied in
`recordsFailed` and never aborts the batch - the upload request succeeds on
every non-empty sheet, and the concrete 10-row sheet with one row missing
`student_id` yields `processed=9, failed=1`.  The legacy variant also never
aborts, but it swallows per-row failures without any tally (see the
counterexample). -/
theorem c5_row_failure_tallied :
    (∀ (db : Db) (rows : List Row), rows ≠ [] →
      ∃ x, importUpload db rows = .ok x) ∧
    (importUpload emptyDb c5Rows).map
      (fun p => (p.2.recordsProcessed, p.2.recordsFailed)) = .ok (9, 1) := by
  constructor
  · intro db rows hne
    match rows with
    | r0 :: rest => exact ⟨_, rfl⟩
  · decide

/-- C5 witness: the no-abort half of the amended claim applied to the
concrete 10-row sheet. -/
theorem c5_row_failure_tallied_witness :
    c5Rows ≠ [] ∧ ∃ x, importUpload emptyDb c5Rows = .ok x :=
  ⟨by decide, c5_row_failure_tallied.1 emptyDb c5Rows (by decide)⟩

/-- C5 counterexample: the legacy variant, importing the very same 10-row
sheet, counts 9 processed rows, swallows the failing row without a tally,
and its success response has no failed-records member at all, so it does
not yield the claimed ImportResult with `failed=1`. -/
theorem c5_legacy_no_failed_cx :
    (legacyImportUpload emptyDb c5Rows).map
      (fun p => p.2.recordsProcessed) = .ok 9 ∧
    "recordsFailed" ∉ legacyUploadResponseFields ∧
    "recordsFailed" ∈ uploadResponseFields := by
  decide

/-! ### C6 -/

theorem registryAdd_cols (db : Db) (c : String) :
    (registryAdd db c).studentCols = db.studentCols := by
  unfold registryAdd
  split <;> rfl

theorem registryAdd_students (db : Db) (c : String) :
    (registryAdd db c).students = db.students := by
  unfold registryAdd
  split <;> rfl

theorem registryAdd_mem (db : Db) (c x : String) :
    x ∈ (registryAdd db c).registry ↔ x ∈ db.registry ∨ x = c := by
  unfold registryAdd
  by_cases h : db.registry.contains c = true
  · rw [if_pos h]
    constructor
    · exact fun hx => Or.inl hx
    · rintro (hx | rfl)
      · exact hx
      · simpa using h
  · rw [if_neg h]
    show x ∈ db.registry ++ [c] ↔ _
    simp

theorem upsertRow_cols_reg (db : Db) (r : Row) :
    ((upsertRow db r).1).studentCols = db.studentCols ∧
    ((upsertRow db r).1).registry = db.registry := by
  rcases upsertRow_shape db r with hs | hs | ⟨sid, hs⟩ <;> rw [hs] <;> exact ⟨rfl, rfl⟩

theorem upsertRow_good_outcome (db : Db) (r : Row)
    (hnd : (r.map Prod.fst).Nodup)
    (hreq : ∀ c ∈ requiredCols, c ∈ (validEntries r).map Prod.fst)
    (hkeys : ∀ k ∈ (validEntries r).map Prod.fst, k ∈ db.studentCols) :
    (upsertRow db r).2 = .processed := by
  have hsid : "student_id" ∈ (validEntries r).map Prod.fst :=
    hreq "student_id" (by decide)
  have hname : "name" ∈ (validEntries r).map Prod.fst :=
    hreq "name" (by decide)
  obtain ⟨v0, hv0⟩ := alookup_key_mem hsid
  have hvm := mem_validEntries.mp (alookup_mem hv0)
  have hrowsid : alookup "student_id" r = some (some v0) :=
    alookup_eq_of_mem_nodup hnd hvm.1
  have hjoin : (alookup "student_id" r).join = some v0 := by rw [hrowsid]; rfl
  have hempty : (validEntries r).isEmpty = false := by
    cases hv : validEntries r with
    | nil => rw [hv] at hsid; simp at hsid
    | cons a l => rfl
  have hunk : (validEntries r).any (fun e => !(db.studentCols.contains e.1)) = false := by
    rw [List.any_eq_false]
    intro e he
    have := hkeys e.1 (List.mem_map.mpr ⟨e, he, rfl⟩)
    simp [this]
  have hreqc : requiredCols.any
      (fun c => !(((validEntries r).map Prod.fst).contains c)) = false := by
    rw [List.any_eq_false]
    intro c hc
    have := hreq c hc
    simp [this]
  unfold upsertRow
  rw [hempty, if_neg Bool.false_ne_true, hunk, if_neg Bool.false_ne_true,
    hreqc, if_neg Bool.false_ne_true, hjoin]
  dsimp only
  by_cases hdup : db.students.any (fun s => idMatches s v0) = true
  · rw [if_pos hdup]
    have hupd : (updatesOf r).isEmpty = false := by
      obtain ⟨nv, hnv⟩ := alookup_key_mem hname
      have hmemn := mem_validEntries.mp (alookup_mem hnv)
      have hmu : ("name", nv) ∈ updatesOf r :=
        mem_updatesOf.mpr ⟨by decide, hmemn.1, hmemn.2⟩
      cases hu : updatesOf r with
      | nil => rw [hu] at hmu; simp at hmu
      | cons a l => rfl
    rw [hupd, if_neg Bool.false_ne_true]
  · rw [if_neg hdup]

theorem processRows_good (rows : List Row) (db : Db)
    (hgood : ∀ r ∈ rows, (r.map Prod.fst).Nodup ∧
      (∀ c ∈ requiredCols, c ∈ (validEntries r).map Prod.fst) ∧
      (∀ k ∈ (validEntries r).map Prod.fst, k ∈ db.studentCols)) :
    (processRows db rows).2.1 = rows.length ∧
    (processRows db rows).2.2 = 0 ∧
    ((processRows db rows).1).studentCols = db.studentCols ∧
    ((processRows db rows).1).registry = db.registry := by
  induction rows generalizing db with
  | nil => exact ⟨rfl, rfl, rfl, rfl⟩
  | cons r rs ih =>
    have h0 := hgood r (List.mem_cons_self r rs)
    have hout := upsertRow_good_outcome db r h0.1 h0.2.1 h0.2.2
    have hcr := upsertRow_cols_reg db r
    have ihx := ih ((upsertRow db r).1) (fun r2 h2 =>
      ⟨(hgood r2 (List.mem_cons_of_mem r h2)).1,
       (hgood r2 (List.mem_cons_of_mem r h2)).2.1,
       fun k hk => by
        rw [hcr.1]
        exact (hgood r2 (List.mem_cons_of_mem r h2)).2.2 k hk⟩)
    rw [processRows, hout]
    refine ⟨?_, ?_, ?_, ?_⟩
    · show (outcomeCounts .processed).1 + _ = rs.length + 1
      rw [ihx.1]
      show 1 + rs.length = rs.length + 1
      omega
    · show (outcomeCounts .processed).2 + _ = 0
      rw [ihx.2.1]
      rfl
    · show ((processRows ((upsertRow db r).1) rs).1).studentCols = db.studentCols
      rw [ihx.2.2.1, hcr.1]
    · show ((processRows ((upsertRow db r).1) rs).1).registry = db.registry
      rw [ihx.2.2.2, hcr.2]

theorem colsPhase (cs : List String) (db : Db)
    (hnd : cs.Nodup)
    (hc : ∀ c ∈ cs, ¬ (c = "") ∧
      (∀ d ∈ db.studentCols, likeM (lcs c) (lcs d) = false) ∧
      (∀ d ∈ cs, ¬ (d = c) → likeM (lcs c) (lcs d) = false)) :
    (cs.foldl importAddCol db).studentCols = db.studentCols ++ cs ∧
    (cs.foldl importAddCol db).students = db.students := by
  induction cs generalizing db with
  | nil => simp
  | cons c cs2 ih =>
    have h0 := hc c (List.mem_cons_self c cs2)
    have hany : (registryAdd db c).studentCols.any
        (fun d => likeM (lcs c) (lcs d)) = false := by
      rw [registryAdd_cols, List.any_eq_false]
      intro d hd
      simp [h0.2.1 d hd]
    have hstep_cols : (importAddCol db c).studentCols = db.studentCols ++ [c] := by
      unfold importAddCol
      rw [hany, if_neg Bool.false_ne_true, if_neg h0.1]
      show (registryAdd db c).studentCols ++ [c] = db.studentCols ++ [c]
      rw [registryAdd_cols]
    have hstep_students : (importAddCol db c).students = db.students := by
      unfold importAddCol
      rw [hany, if_neg Bool.false_ne_true, if_neg h0.1]
      show (registryAdd db c).students = db.students
      rw [registryAdd_students]
    rw [List.nodup_cons] at hnd
    have ihx := ih (importAddCol db c) hnd.2 (fun c2 h2 => by
      refine ⟨(hc c2 (List.mem_cons_of_mem c h2)).1, ?_, ?_⟩
      · intro d hd
        rw [hstep_cols] at hd
        rcases List.mem_append.mp hd with hd1 | hd1
        · exact (hc c2 (List.mem_cons_of_mem c h2)).2.1 d hd1
        · have hdc : d = c := by simpa using hd1
          rw [hdc]
          refine (hc c2 (List.mem_cons_of_mem c h2)).2.2 c (List.mem_cons_self _ _) ?_
          intro he
          refine hnd.1 ?_
          rw [he]
          exact h2
      · intro d hd hne
        exact (hc c2 (List.mem_cons_of_mem c h2)).2.2 d (List.mem_cons_of_mem c hd) hne)
    rw [List.foldl_cons]
    refine ⟨?_, ?_⟩
    · rw [ihx.1, hstep_cols, List.append_assoc]
      rfl
    · rw [ihx.2, hstep_students]

theorem filter_not_contains_nil (l cols : List String) (h : ∀ c ∈ l, c ∈ cols) :
    l.filter (fun c => !(cols.contains c)) = [] := by
  rw [List.filter_eq_nil_iff]
  intro c hc
  simp [h c hc]

theorem importUpload_cons (db : Db) (r0 : Row) (rest : List Row) :
    importUpload db (r0 :: rest) =
      .ok ((processRows
              (((r0.map Prod.fst).filter
                  (fun c => !(db.studentCols.contains c))).foldl importAddCol db)
              (r0 :: rest)).1,
           { recordsProcessed :=
               (processRows
                 (((r0.map Prod.fst).filter
                     (fun c => !(db.studentCols.contains c))).foldl importAddCol db)
                 (r0 :: rest)).2.1,
             recordsFailed :=
               (processRows
                 (((r0.map Prod.fst).filter
                     (fun c => !(db.studentCols.contains c))).foldl importAddCol db)
                 (r0 :: rest)).2.2,
             newColumnsAdded :=
               (r0.map Prod.fst).filter (fun c => !(db.studentCols.contains c)) }) := rfl

theorem importUpload_clean_twice (db : Db) (r0 : Row) (rest : List Row)
    (hndh : (r0.map Prod.fst).Nodup)
    (hrows : ∀ r ∈ r0 :: rest, (r.map Prod.fst).Nodup ∧
      (∀ c ∈ requiredCols, c ∈ (validEntries r).map Prod.fst) ∧
      (∀ k ∈ r.map Prod.fst, k ∈ r0.map Prod.fst))
    (hhead : ∀ c ∈ r0.map Prod.fst, ¬ (c = "") ∧
      (c ∉ db.studentCols →
        (∀ d ∈ db.studentCols, likeM (lcs c) (lcs d) = false) ∧
        (∀ d ∈ r0.map Prod.fst, ¬ (d = c) → likeM (lcs c) (lcs d) = false))) :
    ∃ dbA res1 dbB res2,
      importUpload db (r0 :: rest) = .ok (dbA, res1) ∧
      res1.recordsProcessed = (r0 :: rest).length ∧
      res1.recordsFailed = 0 ∧
      importUpload dbA (r0 :: rest) = .ok (dbB, res2) ∧
      res2.recordsProcessed = (r0 :: rest).length ∧
      res2.recordsFailed = 0 ∧
      res2.newColumnsAdded = [] := by
  have hndN : ((r0.map Prod.fst).filter
      (fun c => !(db.studentCols.contains c))).Nodup := hndh.filter _
  have hcN : ∀ c ∈ (r0.map Prod.fst).filter (fun c => !(db.studentCols.contains c)),
      ¬ (c = "") ∧
      (∀ d ∈ db.studentCols, likeM (lcs c) (lcs d) = false) ∧
      (∀ d ∈ (r0.map Prod.fst).filter (fun c => !(db.studentCols.contains c)),
        ¬ (d = c) → likeM (lcs c) (lcs d) = false) := by
    intro c hcm
    obtain ⟨hch, hcc⟩ := List.mem_filter.mp hcm
    have hnotin : c ∉ db.studentCols := by simpa using hcc
    refine ⟨(hhead c hch).1, ((hhead c hch).2 hnotin).1, ?_⟩
    intro d hd hne
    exact ((hhead c hch).2 hnotin).2 d (List.mem_filter.mp hd).1 hne
  have hphase := colsPhase _ db hndN hcN
  have hcover : ∀ k ∈ r0.map Prod.fst,
      k ∈ (((r0.map Prod.fst).filter
        (fun c => !(db.studentCols.contains c))).foldl importAddCol db).studentCols := by
    intro k hk
    rw [hphase.1]
    by_cases hkc : k ∈ db.studentCols
    · exact List.mem_append.mpr (Or.inl hkc)
    · exact List.mem_append.mpr (Or.inr (List.mem_filter.mpr ⟨hk, by simpa using hkc⟩))
  have hrun1 := processRows_good (r0 :: rest)
    (((r0.map Prod.fst).filter (fun c => !(db.studentCols.contains c))).foldl
      importAddCol db)
    (fun r hr =>
      ⟨(hrows r hr).1, (hrows r hr).2.1,
       fun k hk => hcover k ((hrows r hr).2.2 k (validEntries_key_mem hk))⟩)
  have hcolsA : ((processRows
      (((r0.map Prod.fst).filter (fun c => !(db.studentCols.contains c))).foldl
        importAddCol db) (r0 :: rest)).1).studentCols =
      db.studentCols ++
        (r0.map Prod.fst).filter (fun c => !(db.studentCols.contains c)) := by
    rw [hrun1.2.2.1, hphase.1]
  have hcoverA : ∀ k ∈ r0.map Prod.fst,
      k ∈ ((processRows
        (((r0.map Prod.fst).filter (fun c => !(db.studentCols.contains c))).foldl
          importAddCol db) (r0 :: rest)).1).studentCols := by
    intro k hk
    rw [hrun1.2.2.1]
    exact hcover k hk
  have hnil : (r0.map Prod.fst).filter
      (fun c => !(((processRows
        (((r0.map Prod.fst).filter (fun c => !(db.studentCols.contains c))).foldl
          importAddCol db) (r0 :: rest)).1).studentCols.contains c)) = [] :=
    filter_not_contains_nil _ _ hcoverA
  have hrun2 := processRows_good (r0 :: rest)
    ((processRows
      (((r0.map Prod.fst).filter (fun c => !(db.studentCols.contains c))).foldl
        importAddCol db) (r0 :: rest)).1)
    (fun r hr =>
      ⟨(hrows r hr).1, (hrows r hr).2.1,
       fun k hk => hcoverA k ((hrows r hr).2.2 k (validEntries_key_mem hk))⟩)
  have himp2 : importUpload
      ((processRows
        (((r0.map Prod.fst).filter (fun c => !(db.studentCols.contains c))).foldl
          importAddCol db) (r0 :: rest)).1) (r0 :: rest) =
      .ok ((processRows
            ((processRows
              (((r0.map Prod.fst).filter (fun c => !(db.studentCols.contains c))).foldl
                importAddCol db) (r0 :: rest)).1) (r0 :: rest)).1,
           { recordsProcessed :=
               (processRows
                 ((processRows
                   (((r0.map Prod.fst).filter
                       (fun c => !(db.studentCols.contains c))).foldl
                     importAddCol db) (r0 :: rest)).1) (r0 :: rest)).2.1,
             recordsFailed :=
               (processRows
                 ((processRows
                   (((r0.map Prod.fst).filter
                       (fun c => !(db.studentCols.contains c))).foldl
                     importAddCol db) (r0 :: rest)).1) (r0 :: rest)).2.2,
             newColumnsAdded := [] }) := by
    rw [importUpload_cons, hnil]
    rfl
  refine ⟨_, _, _, _, importUpload_cons db r0 rest, hrun1.1, hrun1.2.1, himp2,
    hrun2.1, hrun2.2.1, rfl⟩

theorem legacyColsPhase (cs : List String) (db : Db)
    (h : ∀ c ∈ cs, ¬ (c = "")) :
    ∃ db1, cs.foldlM legacyAddCol db = .ok db1 ∧
      db1.students = db.students ∧
      (∀ x ∈ db.registry, x ∈ db1.registry) ∧
      (∀ x ∈ db.studentCols, x ∈ db1.studentCols) ∧
      (∀ c ∈ cs, c ∈ db1.registry ∧ c ∈ db1.studentCols) := by
  induction cs generalizing db with
  | nil =>
    exact ⟨db, rfl, rfl, fun x hx => hx, fun x hx => hx, by simp⟩
  | cons c cs2 ih =>
    have hc := h c (List.mem_cons_self c cs2)
    by_cases hcc : (registryAdd db c).studentCols.contains c = true
    · have hstep : legacyAddCol db c = .ok (registryAdd db c) := by
        unfold legacyAddCol
        rw [if_neg hc, if_pos hcc]
      obtain ⟨db1, h1, h2, h3, h4, h5⟩ :=
        ih (registryAdd db c) (fun d hd => h d (List.mem_cons_of_mem c hd))
      refine ⟨db1, ?_, ?_, ?_, ?_, ?_⟩
      · rw [List.foldlM_cons, hstep]
        exact h1
      · rw [h2, registryAdd_students]
      · intro x hx
        exact h3 x ((registryAdd_mem db c x).mpr (Or.inl hx))
      · intro x hx
        refine h4 x ?_
        rw [registryAdd_cols]
        exact hx
      · intro d hd
        rcases List.mem_cons.mp hd with rfl | hd2
        · refine ⟨h3 d ((registryAdd_mem db d d).mpr (Or.inr rfl)), h4 d ?_⟩
          simpa using hcc
        · exact h5 d hd2
    · have hstep : legacyAddCol db c =
          .ok { registryAdd db c with
                studentCols := (registryAdd db c).studentCols ++ [c] } := by
        unfold legacyAddCol
        rw [if_neg hc, if_neg hcc]
      obtain ⟨db1, h1, h2, h3, h4, h5⟩ :=
        ih { registryAdd db c with
             studentCols := (registryAdd db c).studentCols ++ [c] }
          (fun d hd => h d (List.mem_cons_of_mem c hd))
      refine ⟨db1, ?_, ?_, ?_, ?_, ?_⟩
      · rw [List.foldlM_cons, hstep]
        exact h1
      · rw [h2]
        show (registryAdd db c).students = db.students
        rw [registryAdd_students]
      · intro x hx
        refine h3 x ?_
        show x ∈ (registryAdd db c).registry
        exact (registryAdd_mem db c x).mpr (Or.inl hx)
      · intro x hx
        refine h4 x ?_
        show x ∈ (registryAdd db c).studentCols ++ [c]
        rw [registryAdd_cols]
        exact List.mem_append.mpr (Or.inl hx)
      · intro d hd
        rcases List.mem_cons.mp hd with rfl | hd2
        · refine ⟨?_, ?_⟩
          · refine h3 d ?_
            show d ∈ (registryAdd db d).registry
            exact (registryAdd_mem db d d).mpr (Or.inr rfl)
          · refine h4 d ?_
            show d ∈ (registryAdd db d).studentCols ++ [d]
            exact List.mem_append.mpr (Or.inr (by simp))
        · exact h5 d hd2

theorem legacyUpsertRow_cols_reg (db : Db) (r : Row) :
    ((legacyUpsertRow db r).1).studentCols = db.studentCols ∧
    ((legacyUpsertRow db r).1).registry = db.registry := by
  unfold legacyUpsertRow
  repeat' split
  all_goals exact ⟨rfl, rfl⟩

theorem legacyUpsertRow_good (db : Db) (r : Row)
    (hnd : (r.map Prod.fst).Nodup)
    (hreq : ∀ c ∈ requiredCols, c ∈ (validEntries r).map Prod.fst)
    (hkeys : ∀ k ∈ r.map Prod.fst, k ∈ db.studentCols) :
    (legacyUpsertRow db r).2 = true := by
  have hsid : "student_id" ∈ (validEntries r).map Prod.fst :=
    hreq "student_id" (by decide)
  obtain ⟨v0, hv0⟩ := alookup_key_mem hsid
  have hvm := mem_validEntries.mp (alookup_mem hv0)
  have hrowsid : alookup "student_id" r = some (some v0) :=
    alookup_eq_of_mem_nodup hnd hvm.1
  have hjoin : (alookup "student_id" r).join = some v0 := by rw [hrowsid]; rfl
  have hempty : r.isEmpty = false := by
    cases hr : r with
    | nil =>
      rw [hr] at hrowsid
      simp at hrowsid
    | cons a l => rfl
  have hunk : r.any (fun p => !(db.studentCols.contains p.1)) = false := by
    rw [List.any_eq_false]
    intro p hp
    have := hkeys p.1 (List.mem_map.mpr ⟨p, hp, rfl⟩)
    simp [this]
  have hnonull : r.any (fun p => requiredCols.contains p.1 && p.2 == none) = false := by
    rw [List.any_eq_false]
    intro p hp
    by_cases hpr : p.1 ∈ requiredCols
    · obtain ⟨w, hw⟩ := alookup_key_mem (hreq p.1 hpr)
      have hwm := mem_validEntries.mp (alookup_mem hw)
      have hrw : alookup p.1 r = some (some w) := alookup_eq_of_mem_nodup hnd hwm.1
      have hpv : alookup p.1 r = some p.2 := alookup_eq_of_mem_nodup hnd (by
        cases p
        exact hp)
      have hp2 : p.2 = some w := by
        rw [hrw] at hpv
        injection hpv with hpv
        exact hpv.symm
      rw [hp2]
      simp
    · have : requiredCols.contains p.1 = false := by simpa using hpr
      rw [this, Bool.false_and]
      exact Bool.false_ne_true
  have hreqk : requiredCols.any (fun c => !((r.map Prod.fst).contains c)) = false := by
    rw [List.any_eq_false]
    intro c hcr
    have := validEntries_key_mem (hreq c hcr)
    simp [this]
  unfold legacyUpsertRow
  rw [hempty, if_neg Bool.false_ne_true, hunk, if_neg Bool.false_ne_true, hjoin]
  dsimp only
  by_cases hdup : db.students.any (fun s => idMatches s v0) = true
  · rw [if_pos hdup, hnonull, if_neg Bool.false_ne_true]
  · rw [if_neg hdup, hreqk, if_neg Bool.false_ne_true, hnonull,
      if_neg Bool.false_ne_true]

theorem legacyProcessRows_good (rows : List Row) (db : Db)
    (hgood : ∀ r ∈ rows, (r.map Prod.fst).Nodup ∧
      (∀ c ∈ requiredCols, c ∈ (validEntries r).map Prod.fst) ∧
      (∀ k ∈ r.map Prod.fst, k ∈ db.studentCols)) :
    (legacyProcessRows db rows).2 = rows.length ∧
    ((legacyProcessRows db rows).1).studentCols = db.studentCols ∧
    ((legacyProcessRows db rows).1).registry = db.registry := by
  induction rows generalizing db with
  | nil => exact ⟨rfl, rfl, rfl⟩
  | cons r rs ih =>
    have h0 := hgood r (List.mem_cons_self r rs)
    have hout := legacyUpsertRow_good db r h0.1 h0.2.1 h0.2.2
    have hcr := legacyUpsertRow_cols_reg db r
    have ihx := ih ((legacyUpsertRow db r).1) (fun r2 h2 =>
      ⟨(hgood r2 (List.mem_cons_of_mem r h2)).1,
       (hgood r2 (List.mem_cons_of_mem r h2)).2.1,
       fun k hk => by
        rw [hcr.1]
        exact (hgood r2 (List.mem_cons_of_mem r h2)).2.2 k hk⟩)
    rw [legacyProcessRows, hout]
    refine ⟨?_, ?_, ?_⟩
    · show (if true then 1 else 0) + _ = rs.length + 1
      rw [ihx.1, if_pos rfl]
      omega
    · show ((legacyProcessRows ((legacyUpsertRow db r).1) rs).1).studentCols = _
      rw [ihx.2.1, hcr.1]
    · show ((legacyProcessRows ((legacyUpsertRow db r).1) rs).1).registry = _
      rw [ihx.2.2, hcr.2]

theorem legacyImport_clean_twice (db : Db) (r0 : Row) (rest : List Row)
    (hwfb : ∀ x ∈ baseColumns, x ∈ db.studentCols)
    (hwfr : ∀ x ∈ db.registry, x ∈ db.studentCols)
    (hrows : ∀ r ∈ r0 :: rest, (r.map Prod.fst).Nodup ∧
      (∀ c ∈ requiredCols, c ∈ (validEntries r).map Prod.fst) ∧
      (∀ k ∈ r.map Prod.fst, k ∈ r0.map Prod.fst))
    (hne : ∀ c ∈ r0.map Prod.fst, ¬ (c = "")) :
    ∃ dbA res1 dbB res2,
      legacyImportUpload db (r0 :: rest) = .ok (dbA, res1) ∧
      res1.recordsProcessed = (r0 :: rest).length ∧
      legacyImportUpload dbA (r0 :: rest) = .ok (dbB, res2) ∧
      res2.recordsProcessed = (r0 :: rest).length ∧
      res2.newColumnsAdded = [] := by
  obtain ⟨db1, hph, hst, hregm, hcolm, hnew⟩ :=
    legacyColsPhase
      ((r0.map Prod.fst).filter (fun c => !((baseColumns ++ db.registry).contains c)))
      db
      (fun c hc => hne c (List.mem_filter.mp hc).1)
  have hcover : ∀ k ∈ r0.map Prod.fst, k ∈ db1.studentCols := by
    intro k hk
    by_cases hkb : k ∈ baseColumns ++ db.registry
    · rcases List.mem_append.mp hkb with hk1 | hk1
      · exact hcolm k (hwfb k hk1)
      · exact hcolm k (hwfr k hk1)
    · exact (hnew k (List.mem_filter.mpr ⟨hk, by simpa using hkb⟩)).2
  have hrun1 := legacyProcessRows_good (r0 :: rest) db1 (fun r hr =>
    ⟨(hrows r hr).1, (hrows r hr).2.1,
     fun k hk => hcover k ((hrows r hr).2.2 k hk)⟩)
  have himp1 : legacyImportUpload db (r0 :: rest) =
      .ok ((legacyProcessRows db1 (r0 :: rest)).1,
           { recordsProcessed := (legacyProcessRows db1 (r0 :: rest)).2,
             newColumnsAdded := (r0.map Prod.fst).filter
               (fun c => !((baseColumns ++ db.registry).contains c)) }) := by
    have hdef : legacyImportUpload db (r0 :: rest) =
        (((r0.map Prod.fst).filter
            (fun c => !((baseColumns ++ db.registry).contains c))).foldlM
          legacyAddCol db).map (fun d1 =>
            ((legacyProcessRows d1 (r0 :: rest)).1,
             { recordsProcessed := (legacyProcessRows d1 (r0 :: rest)).2,
               newColumnsAdded := (r0.map Prod.fst).filter
                 (fun c => !((baseColumns ++ db.registry).contains c)) })) := rfl
    rw [hdef, hph]
    rfl
  have hregA : ((legacyProcessRows db1 (r0 :: rest)).1).registry = db1.registry :=
    hrun1.2.2
  have hcolsA : ((legacyProcessRows db1 (r0 :: rest)).1).studentCols =
      db1.studentCols := hrun1.2.1
  have hcover2 : ∀ k ∈ r0.map Prod.fst,
      k ∈ baseColumns ++ ((legacyProcessRows db1 (r0 :: rest)).1).registry := by
    intro k hk
    rw [hregA]
    by_cases hkb : k ∈ baseColumns ++ db.registry
    · rcases List.mem_append.mp hkb with hk1 | hk1
      · exact List.mem_append.mpr (Or.inl hk1)
      · exact List.mem_append.mpr (Or.inr (hregm k hk1))
    · exact List.mem_append.mpr (Or.inr
        (hnew k (List.mem_filter.mpr ⟨hk, by simpa using hkb⟩)).1)
  have hnil : (r0.map Prod.fst).filter
      (fun c => !((baseColumns ++
        ((legacyProcessRows db1 (r0 :: rest)).1).registry).contains c)) = [] :=
    filter_not_contains_nil _ _ hcover2
  have hrun2 := legacyProcessRows_good (r0 :: rest)
    ((legacyProcessRows db1 (r0 :: rest)).1) (fun r hr =>
      ⟨(hrows r hr).1, (hrows r hr).2.1,
       fun k hk => by
        rw [hcolsA]
        exact hcover k ((hrows r hr).2.2 k hk)⟩)
  have himp2 : legacyImportUpload ((legacyProcessRows db1 (r0 :: rest)).1)
      (r0 :: rest) =
      .ok ((legacyProcessRows ((legacyProcessRows db1 (r0 :: rest)).1)
              (r0 :: rest)).1,
           { recordsProcessed :=
               (legacyProcessRows ((legacyProcessRows db1 (r0 :: rest)).1)
                 (r0 :: rest)).2,
             newColumnsAdded := [] }) := by
    have hdef : legacyImportUpload ((legacyProcessRows db1 (r0 :: rest)).1)
        (r0 :: rest) =
        (((r0.map Prod.fst).filter
            (fun c => !((baseColumns ++
              ((legacyProcessRows db1 (r0 :: rest)).1).registry).contains c))).foldlM
          legacyAddCol ((legacyProcessRows db1 (r0 :: rest)).1)).map (fun d1 =>
            ((legacyProcessRows d1 (r0 :: rest)).1,
             { recordsProcessed := (legacyProcessRows d1 (r0 :: rest)).2,
               newColumnsAdded := (r0.map Prod.fst).filter
                 (fun c => !((baseColumns ++
                   ((legacyProcessRows db1 (r0 :: rest)).1).registry).contains c)) })) :=
      rfl
    rw [hdef, hnil]
    rfl
  exact ⟨_, _, _, _, himp1, hrun1.1, himp2, hrun2.1, rfl⟩

/-- C6: re-importing an unchanged spreadsheet is idempotent in both
variants.  For a sheet that imports cleanly - non-empty, distinct non-empty
header names covering every row's keys, header names that do not collide
with existing columns under the `SHOW COLUMNS LIKE` pattern check, every
row carrying non-empty values for the four required attributes, and a
well-formed starting state - the processed count equals the row count on
the first run and again on the second run, and `newColumnsAdded` is empty
on the second run. -/
theorem c6_reimport_idempotent (db : Db) (r0 : Row) (rest : List Row)
    (hndh : (r0.map Prod.fst).Nodup)
    (hrows : ∀ r ∈ r0 :: rest, (r.map Prod.fst).Nodup ∧
      (∀ c ∈ requiredCols, c ∈ (validEntries r).map Prod.fst) ∧
      (∀ k ∈ r.map Prod.fst, k ∈ r0.map Prod.fst))
    (hhead : ∀ c ∈ r0.map Prod.fst, ¬ (c = "") ∧
      (c ∉ db.studentCols →
        (∀ d ∈ db.studentCols, likeM (lcs c) (lcs d) = false) ∧
        (∀ d ∈ r0.map Prod.fst, ¬ (d = c) → likeM (lcs c) (lcs d) = false)))
    (hwfb : ∀ x ∈ baseColumns, x ∈ db.studentCols)
    (hwfr : ∀ x ∈ db.registry, x ∈ db.studentCols) :
    (∃ dbA res1 dbB res2,
      importUpload db (r0 :: rest) = .ok (dbA, res1) ∧
      res1.recordsProcessed = (r0 :: rest).length ∧
      res1.recordsFailed = 0 ∧
      importUpload dbA (r0 :: rest) = .ok (dbB, res2) ∧
      res2.recordsProcessed = (r0 :: rest).length ∧
      res2.recordsFailed = 0 ∧
      res2.newColumnsAdded = []) ∧
    (∃ dbA res1 dbB res2,
      legacyImportUpload db (r0 :: rest) = .ok (dbA, res1) ∧
      res1.recordsProcessed = (r0 :: rest).length ∧
      legacyImportUpload dbA (r0 :: rest) = .ok (dbB, res2) ∧
      res2.recordsProcessed = (r0 :: rest).length ∧
      res2.newColumnsAdded = []) :=
  ⟨importUpload_clean_twice db r0 rest hndh hrows hhead,
   legacyImport_clean_twice db r0 rest hwfb hwfr hrows
     (fun c hc => (hhead c hc).1)⟩

/-- C6 witness: a clean two-row sheet imported twice into a fresh database
through both variants. -/
theorem c6_reimport_idempotent_witness :
    ((c5ValidRow "S1" "N1").map Prod.fst).Nodup ∧
    ((∃ dbA res1 dbB res2,
      importUpload emptyDb (c5ValidRow "S1" "N1" :: [c5ValidRow "S2" "N2"]) =
        .ok (dbA, res1) ∧
      res1.recordsProcessed = (c5ValidRow "S1" "N1" :: [c5ValidRow "S2" "N2"]).length ∧
      res1.recordsFailed = 0 ∧
      importUpload dbA (c5ValidRow "S1" "N1" :: [c5ValidRow "S2" "N2"]) =
        .ok (dbB, res2) ∧
      res2.recordsProcessed = (c5ValidRow "S1" "N1" :: [c5ValidRow "S2" "N2"]).length ∧
      res2.recordsFailed = 0 ∧
      res2.newColumnsAdded = []) ∧
    (∃ dbA res1 dbB res2,
      legacyImportUpload emptyDb (c5ValidRow "S1" "N1" :: [c5ValidRow "S2" "N2"]) =
        .ok (dbA, res1) ∧
      res1.recordsProcessed = (c5ValidRow "S1" "N1" :: [c5ValidRow "S2" "N2"]).length ∧
      legacyImportUpload dbA (c5ValidRow "S1" "N1" :: [c5ValidRow "S2" "N2"]) =
        .ok (dbB, res2) ∧
      res2.recordsProcessed = (c5ValidRow "S1" "N1" :: [c5ValidRow "S2" "N2"]).length ∧
      res2.newColumnsAdded = [])) :=
  ⟨by decide,
   c6_reimport_idempotent emptyDb (c5ValidRow "S1" "N1") [c5ValidRow "S2" "N2"]
     (by decide) (by decide) (by decide) (by decide) (by decide)⟩
